import Mathlib

/-!
# WAF resource enumeration (`providers/aws/waf.go`)

A shallow embedding of `WafGenerator.InitResources` and its twelve listers
(`loadWebACL` ... `loadXssMatchSet`), followed by the properties proved about them.

Modelling conventions.

* A Go `string` is a sequence of bytes, so `len` and the slice expression `s[lo:hi]`
  count bytes.
* A Go function of result type `error` either returns (`nil` or an error value) or
  panics; both are results of the embedded functions (`Outcome`).  A panic leaves the
  assignments made before it in place.
* The WAF client is a table of list responses, one per list operation; every
  `Send` is recorded in the trace `State.sent`.
-/

namespace Waf

/-! ## Go values -/

/-- Go `string`: a sequence of bytes. -/
abbrev GoString := List UInt8

/-- The bytes of a string literal of the source text (Go source is UTF-8). -/
def str (s : String) : GoString := s.data.flatMap String.utf8EncodeChar

/-- A non-nil Go `error` value. -/
structure GoError where
  msg : String
deriving DecidableEq, Repr

/-- Run-time panics the code of `waf.go` can raise. -/
inductive Panic where
  /-- `*p` with `p == nil`. -/
  | nilDereference
  /-- `s[lo:hi]` with `hi > len(s)` or `lo > hi`. -/
  | sliceBoundsOutOfRange
deriving DecidableEq, Repr

/-- Result of an expression that may panic, or of a call returning `(T, error)`. -/
inductive Res (ε α : Type) where
  | ok (v : α)
  | error (e : ε)
deriving DecidableEq, Repr

/-- Pointer indirection `*p` on a `*string`. -/
def deref (p : Option GoString) : Res Panic GoString :=
  match p with
  | some v => .ok v
  | none => .error .nilDereference

/-- Slice expression `s[lo:hi]` on a string: panics unless `lo ≤ hi ≤ len(s)`. -/
def sliceExpr (s : GoString) (lo hi : Nat) : Res Panic GoString :=
  if lo ≤ hi ∧ hi ≤ s.length then .ok ((s.drop lo).take (hi - lo))
  else .error .sliceBoundsOutOfRange

/-! ## Resource descriptors -/

/-- Modelled from the spec: `terraform_utils.Resource` is declared outside
`waf.go`; the spec's Resource Descriptor is the record
`{identifier, display_name, resource_type, provider_tag, empty_value_allowances}`. -/
structure Resource where
  identifier : GoString
  display_name : GoString
  resource_type : GoString
  provider_tag : GoString
  empty_value_allowances : List GoString
deriving DecidableEq, Repr

/-- Modelled from the spec: `terraform_utils.NewSimpleResource` is defined outside
`waf.go`; per the spec the descriptor records the five arguments of the call, in
the order identifier, display name, resource type, provider tag, allowances. -/
def NewSimpleResource (ID resourceName resourceType provider : GoString)
    (allowEmptyValues : List GoString) : Resource :=
  { identifier := ID
    display_name := resourceName
    resource_type := resourceType
    provider_tag := provider
    empty_value_allowances := allowEmptyValues }

/-- `var wafAllowEmptyValues = []string{"tags."}` (waf.go:24). -/
def wafAllowEmptyValues : List GoString := [str "tags."]

/-! ## The WAF client -/

/-- The twelve list operations of `*waf.Client` used by `waf.go`
(`svc.ListXRequest(&waf.ListXInput{}).Send(context.Background())`). -/
inductive Request where
  | ListWebACLs
  | ListByteMatchSets
  | ListGeoMatchSets
  | ListIPSets
  | ListRateBasedRules
  | ListRegexMatchSets
  | ListRegexPatternSets
  | ListRules
  | ListRuleGroups
  | ListSizeConstraintSets
  | ListSqlInjectionMatchSets
  | ListXssMatchSets
deriving DecidableEq, Repr

/-- An item of a list response.  Each summary type of the SDK (`WebACLSummary`,
`ByteMatchSetSummary`, ..., `XssMatchSetSummary`) has the two `*string` fields the
code reads: the ID (`WebACLId`, `ByteMatchSetId`, `RuleId`, ...) and `Name`. -/
structure Summary where
  Id : Option GoString
  Name : Option GoString
deriving DecidableEq, Repr

/-- The client handle `svc`: the `(output, err)` pair each list operation answers
with, `output` reduced to the item slice the code ranges over. -/
abbrev Client := Request → Res GoError (List Summary)

/-- Program state: `g.Resources`, the only field of the receiver written by
`waf.go`, and the trace of the list requests sent so far. -/
structure State where
  Resources : List Resource
  sent : List Request
deriving DecidableEq, Repr

/-- How a call of a function with result type `error` ends. -/
inductive Outcome where
  /-- Normal return of `err` (`none` is `nil`). -/
  | returned (err : Option GoError)
  /-- The call panicked. -/
  | panicked (p : Panic)
deriving DecidableEq, Repr

/-! ## The listers -/

/-- Body of the `for ... range` loop of a lister (e.g. waf.go:83-88):
`g.Resources = append(g.Resources, terraform_utils.NewSimpleResource(
  *x.Id, *x.Name+"_"+(*x.Id)[0:8], resourceType, "aws", wafAllowEmptyValues))`.
Go does not fix the order between the indirection `*x.Name` and the slice expression
(neither is a call); the compiled code checks the slice bounds before it loads
`*x.Name`, which is the order taken here. -/
def loopBody (resourceType : GoString) (x : Summary) (s : State) : Res Panic State :=
  match deref x.Id with
  | .error p => .error p
  | .ok id =>
    match sliceExpr id 0 8 with
    | .error p => .error p
    | .ok short =>
      match deref x.Name with
      | .error p => .error p
      | .ok name =>
        .ok { s with
              Resources := s.Resources ++
                [NewSimpleResource id (name ++ str "_" ++ short) resourceType (str "aws")
                  wafAllowEmptyValues] }

/-- The loop `for _, x := range items { body }`: the state it ends in and the panic
that cut it short, if any. -/
def forRange (resourceType : GoString) : List Summary → State → State × Option Panic
  | [], s => (s, none)
  | x :: xs, s =>
    match loopBody resourceType x s with
    | .error p => (s, some p)
    | .ok s1 => forRange resourceType xs s1

/-- The body of a lister (e.g. waf.go:77-91).  The twelve bodies differ only in the
list request sent, in the names of the item fields read, and in the resource type
literal: send the list request, `if err != nil { return err }`, range over the items
of the output appending one resource each, `return nil`. -/
def load (req : Request) (resourceType : GoString) (svc : Client) (s : State) :
    State × Outcome :=
  let s0 : State := { s with sent := s.sent ++ [req] }
  match svc req with
  | .error err => (s0, .returned (some err))
  | .ok output =>
    match forRange resourceType output s0 with
    | (s1, some p) => (s1, .panicked p)
    | (s1, none) => (s1, .returned none)

/-- See waf.go:77-91. -/
def loadWebACL : Client → State → State × Outcome :=
  load .ListWebACLs (str "aws_waf_web_acl")

/-- See waf.go:93-107. -/
def loadByteMatchSet : Client → State → State × Outcome :=
  load .ListByteMatchSets (str "aws_waf_byte_match_set")

/-- See waf.go:109-123. -/
def loadGeoMatchSet : Client → State → State × Outcome :=
  load .ListGeoMatchSets (str "aws_waf_geo_match_set")

/-- See waf.go:125-139. -/
def loadIPSet : Client → State → State × Outcome :=
  load .ListIPSets (str "aws_waf_ipset")

/-- See waf.go:141-155. -/
def loadRateBasedRules : Client → State → State × Outcome :=
  load .ListRateBasedRules (str "aws_waf_rate_based_rule")

/-- See waf.go:157-171. -/
def loadRegexMatchSets : Client → State → State × Outcome :=
  load .ListRegexMatchSets (str "aws_waf_regex_match_set")

/-- See waf.go:173-187. -/
def loadRegexPatternSets : Client → State → State × Outcome :=
  load .ListRegexPatternSets (str "aws_waf_regex_pattern_set")

/-- See waf.go:189-203. -/
def loadWafRules : Client → State → State × Outcome :=
  load .ListRules (str "aws_waf_rule")

/-- See waf.go:205-219. -/
def loadWafRuleGroups : Client → State → State × Outcome :=
  load .ListRuleGroups (str "aws_waf_rule_group")

/-- See waf.go:221-235. -/
def loadSizeConstraintSets : Client → State → State × Outcome :=
  load .ListSizeConstraintSets (str "aws_waf_size_constraint_set")

/-- See waf.go:237-251. -/
def loadSqlInjectionMatchSets : Client → State → State × Outcome :=
  load .ListSqlInjectionMatchSets (str "aws_waf_sql_injection_match_set")

/-- See waf.go:253-267. -/
def loadXssMatchSet : Client → State → State × Outcome :=
  load .ListXssMatchSets (str "aws_waf_xss_match_set")

/-! ## The facade -/

/-- The statement `if err := f(svc); err != nil { return err }` followed by the rest
of the function body. -/
def ifErrReturn (f : State → State × Outcome) (rest : State → State × Outcome)
    (s : State) : State × Outcome :=
  match f s with
  | (s1, .returned none) => rest s1
  | (s1, .returned (some err)) => (s1, .returned (some err))
  | (s1, .panicked p) => (s1, .panicked p)

/-- `WafGenerator.InitResources` (waf.go:30-75).  `generateConfig` is the result of
`g.generateConfig()`, a method defined outside `waf.go`, already passed through
`waf.New`: the error `e`, or the client `svc` built from the configuration. -/
def InitResources (generateConfig : Res GoError Client) (s : State) : State × Outcome :=
  match generateConfig with
  | .error e => (s, .returned (some e))
  | .ok svc =>
    (ifErrReturn (loadWebACL svc) <|
     ifErrReturn (loadByteMatchSet svc) <|
     ifErrReturn (loadGeoMatchSet svc) <|
     ifErrReturn (loadIPSet svc) <|
     ifErrReturn (loadRateBasedRules svc) <|
     ifErrReturn (loadRegexMatchSets svc) <|
     ifErrReturn (loadRegexPatternSets svc) <|
     ifErrReturn (loadWafRules svc) <|
     ifErrReturn (loadWafRuleGroups svc) <|
     ifErrReturn (loadSizeConstraintSets svc) <|
     ifErrReturn (loadSqlInjectionMatchSets svc) <|
     ifErrReturn (loadXssMatchSet svc) <|
     fun s1 => (s1, .returned none)) s

/-! ## The listers as a family, and what they are expected to append -/

/-- Names for the twelve listers. -/
inductive Lister where
  | webACL
  | byteMatchSet
  | geoMatchSet
  | ipSet
  | rateBasedRules
  | regexMatchSets
  | regexPatternSets
  | wafRules
  | wafRuleGroups
  | sizeConstraintSets
  | sqlInjectionMatchSets
  | xssMatchSet
deriving DecidableEq, Repr

/-- The source function a lister name stands for. -/
def Lister.run : Lister → Client → State → State × Outcome
  | .webACL => loadWebACL
  | .byteMatchSet => loadByteMatchSet
  | .geoMatchSet => loadGeoMatchSet
  | .ipSet => loadIPSet
  | .rateBasedRules => loadRateBasedRules
  | .regexMatchSets => loadRegexMatchSets
  | .regexPatternSets => loadRegexPatternSets
  | .wafRules => loadWafRules
  | .wafRuleGroups => loadWafRuleGroups
  | .sizeConstraintSets => loadSizeConstraintSets
  | .sqlInjectionMatchSets => loadSqlInjectionMatchSets
  | .xssMatchSet => loadXssMatchSet

/-- The list request a lister sends. -/
def Lister.request : Lister → Request
  | .webACL => .ListWebACLs
  | .byteMatchSet => .ListByteMatchSets
  | .geoMatchSet => .ListGeoMatchSets
  | .ipSet => .ListIPSets
  | .rateBasedRules => .ListRateBasedRules
  | .regexMatchSets => .ListRegexMatchSets
  | .regexPatternSets => .ListRegexPatternSets
  | .wafRules => .ListRules
  | .wafRuleGroups => .ListRuleGroups
  | .sizeConstraintSets => .ListSizeConstraintSets
  | .sqlInjectionMatchSets => .ListSqlInjectionMatchSets
  | .xssMatchSet => .ListXssMatchSets

/-- The resource type constant of a lister. -/
def Lister.resourceType : Lister → GoString
  | .webACL => str "aws_waf_web_acl"
  | .byteMatchSet => str "aws_waf_byte_match_set"
  | .geoMatchSet => str "aws_waf_geo_match_set"
  | .ipSet => str "aws_waf_ipset"
  | .rateBasedRules => str "aws_waf_rate_based_rule"
  | .regexMatchSets => str "aws_waf_regex_match_set"
  | .regexPatternSets => str "aws_waf_regex_pattern_set"
  | .wafRules => str "aws_waf_rule"
  | .wafRuleGroups => str "aws_waf_rule_group"
  | .sizeConstraintSets => str "aws_waf_size_constraint_set"
  | .sqlInjectionMatchSets => str "aws_waf_sql_injection_match_set"
  | .xssMatchSet => str "aws_waf_xss_match_set"

/-- The order in which `InitResources` calls the listers (waf.go:37-72). -/
def listers : List Lister :=
  [.webACL, .byteMatchSet, .geoMatchSet, .ipSet, .rateBasedRules, .regexMatchSets,
   .regexPatternSets, .wafRules, .wafRuleGroups, .sizeConstraintSets,
   .sqlInjectionMatchSets, .xssMatchSet]

/-- Both pointer fields of the item are non-nil. -/
def Summary.nonNil (x : Summary) : Bool := x.Id.isSome && x.Name.isSome

/-- Length in bytes of the item's ID (0 for a nil pointer). -/
def Summary.idLen (x : Summary) : Nat :=
  match x.Id with
  | some id => id.length
  | none => 0

/-- The item has a name and an ID, and the ID has at least 8 bytes. -/
def Summary.wellFormed (x : Summary) : Bool := x.nonNil && decide (8 ≤ x.idLen)

/-- The descriptor expected for an item: its ID, its name followed by `_` and the
first 8 bytes of the ID, the lister's resource type, `aws`, and `tags.`. -/
def descriptor (resourceType : GoString) (x : Summary) : Resource :=
  { identifier := x.Id.getD []
    display_name := x.Name.getD [] ++ str "_" ++ (x.Id.getD []).take 8
    resource_type := resourceType
    provider_tag := str "aws"
    empty_value_allowances := [str "tags."] }

/-- The descriptors expected from a lister: one per item of its list response, in
response order (none when the list call fails). -/
def Lister.descriptors (svc : Client) (l : Lister) : List Resource :=
  match svc l.request with
  | .ok items => items.map (descriptor l.resourceType)
  | .error _ => []

/-- The list call of the lister succeeds and every returned item is well formed. -/
def Lister.clean (svc : Client) (l : Lister) : Bool :=
  match svc l.request with
  | .ok items => items.all Summary.wellFormed
  | .error _ => false

/-- The list requests sent during a run of `InitResources` from state `s`. -/
def sentDuring (generateConfig : Res GoError Client) (s : State) : List Request :=
  (InitResources generateConfig s).1.sent.drop s.sent.length

/-- Running a list of listers one after the other, stopping at the first that does
not return `nil`. -/
def runListers (svc : Client) : List Lister → State → State × Outcome
  | [] => fun s => (s, .returned none)
  | l :: ls => ifErrReturn (l.run svc) (runListers svc ls)

/-- Every descriptor the lister `f` appends carries provider tag `aws` and the
resource type `rt`. -/
def Tags (f : Client → State → State × Outcome) (rt : GoString) : Prop :=
  ∀ svc s, ∃ ds, (f svc s).1.Resources = s.Resources ++ ds ∧
    ∀ d ∈ ds, d.provider_tag = str "aws" ∧ d.resource_type = rt

/-! ## Example responses -/

/-- The empty collection, no request sent. -/
def emptyState : State := { Resources := [], sent := [] }

/-- An item with the given ID and name. -/
def item (id name : String) : Summary := { Id := some (str id), Name := some (str name) }

/-- The example of the spec: the Web ACL list answers with the single item
`{WebACLId: "abcd1234ef", Name: "myacl"}`, every other list is empty. -/
def exampleClient : Client
  | .ListWebACLs => .ok [item "abcd1234ef" "myacl"]
  | _ => .ok []

/-- A client whose byte match set list call fails after a Web ACL was listed. -/
def throttledClient : Client
  | .ListWebACLs => .ok [item "abcd1234ef" "myacl"]
  | .ListByteMatchSets => .error ⟨"ThrottlingException"⟩
  | _ => .ok []

/-- A client whose lists hold one item with a 3-byte ID. -/
def shortIdClient : Client
  | .ListWebACLs => .ok [item "abc" "x"]
  | .ListRateBasedRules => .ok [item "0123456789" "r1", item "abc" "r2"]
  | _ => .ok []

/-- A client whose Web ACL list holds an item with a 3-byte ID and whose byte match
set list call fails. -/
def shortIdThenThrottledClient : Client
  | .ListWebACLs => .ok [item "abc" "x"]
  | .ListByteMatchSets => .error ⟨"ThrottlingException"⟩
  | _ => .ok []

/-- The list responses of `exampleClient`, per lister. -/
def exampleResponses : Lister → List Summary
  | .webACL => [item "abcd1234ef" "myacl"]
  | _ => []

/-! ## Lemmas -/

theorem Lister.run_eq (l : Lister) : l.run = load l.request l.resourceType := by
  cases l <;> rfl

theorem InitResources_ok (svc : Client) (s : State) :
    InitResources (.ok svc) s = runListers svc listers s := rfl

theorem loopBody_wellFormed (rt : GoString) (x : Summary) (s : State)
    (h : x.wellFormed = true) :
    loopBody rt x s = .ok { s with Resources := s.Resources ++ [descriptor rt x] } := by
  obtain ⟨id, name⟩ := x
  cases id with
  | none => simp [Summary.wellFormed, Summary.nonNil] at h
  | some id =>
    cases name with
    | none => simp [Summary.wellFormed, Summary.nonNil] at h
    | some name =>
      have h8 : 8 ≤ id.length := by
        simpa [Summary.wellFormed, Summary.nonNil, Summary.idLen] using h
      simp [loopBody, deref, sliceExpr, h8, descriptor, NewSimpleResource,
        wafAllowEmptyValues]

theorem loopBody_short (rt : GoString) (x : Summary) (s : State)
    (hn : x.nonNil = true) (h : x.idLen < 8) :
    loopBody rt x s = .error .sliceBoundsOutOfRange := by
  obtain ⟨id, name⟩ := x
  cases id with
  | none => simp [Summary.nonNil] at hn
  | some id =>
    cases name with
    | none => simp [Summary.nonNil] at hn
    | some name =>
      have h8 : ¬ 8 ≤ id.length := by
        simpa [Summary.idLen] using h
      simp [loopBody, deref, sliceExpr, h8]

theorem loopBody_not_wellFormed (rt : GoString) (x : Summary) (s : State)
    (h : x.wellFormed = false) : ∃ p, loopBody rt x s = .error p := by
  obtain ⟨id, name⟩ := x
  cases id with
  | none => exact ⟨_, rfl⟩
  | some id =>
    by_cases h8 : 8 ≤ id.length
    · cases name with
      | none => exact ⟨.nilDereference, by simp [loopBody, deref, sliceExpr, h8]⟩
      | some name =>
        simp [Summary.wellFormed, Summary.nonNil, Summary.idLen, h8] at h
    · exact ⟨.sliceBoundsOutOfRange, by simp [loopBody, deref, sliceExpr, h8]⟩

theorem forRange_state (rt : GoString) (items : List Summary) (s : State) :
    (forRange rt items s).1 =
      { s with Resources := s.Resources ++
          (items.takeWhile Summary.wellFormed).map (descriptor rt) } := by
  induction items generalizing s with
  | nil => simp [forRange]
  | cons x xs ih =>
    cases h : x.wellFormed with
    | true =>
      simp [forRange, loopBody_wellFormed rt x s h, ih, List.takeWhile_cons, h]
    | false =>
      obtain ⟨p, hp⟩ := loopBody_not_wellFormed rt x s h
      simp [forRange, hp, List.takeWhile_cons, h]

theorem forRange_none_iff (rt : GoString) (items : List Summary) (s : State) :
    (forRange rt items s).2 = none ↔ items.all Summary.wellFormed = true := by
  induction items generalizing s with
  | nil => simp [forRange]
  | cons x xs ih =>
    cases h : x.wellFormed with
    | true => simp [forRange, loopBody_wellFormed rt x s h, ih, h]
    | false =>
      obtain ⟨p, hp⟩ := loopBody_not_wellFormed rt x s h
      simp [forRange, hp, h]

theorem forRange_panic_nonNil (rt : GoString) (items : List Summary) (s : State)
    (hn : ∀ x ∈ items, x.nonNil = true) (p : Panic)
    (hp : (forRange rt items s).2 = some p) : p = .sliceBoundsOutOfRange := by
  induction items generalizing s with
  | nil => simp [forRange] at hp
  | cons x xs ih =>
    cases h : x.wellFormed with
    | true =>
      rw [forRange, loopBody_wellFormed rt x s h] at hp
      exact ih _ (fun y hy => hn y (List.mem_cons_of_mem _ hy)) hp
    | false =>
      have hx : x.nonNil = true := hn x (List.mem_cons_self _ _)
      have hlen : x.idLen < 8 := by
        simpa [Summary.wellFormed, hx] using h
      rw [forRange, loopBody_short rt x s hx hlen] at hp
      simpa using hp.symm

theorem load_error (req : Request) (rt : GoString) (svc : Client) (s : State)
    (e : GoError) (h : svc req = .error e) :
    load req rt svc s = ({ s with sent := s.sent ++ [req] }, .returned (some e)) := by
  simp [load, h]

theorem load_ok_state (req : Request) (rt : GoString) (svc : Client) (s : State)
    (items : List Summary) (h : svc req = .ok items) :
    (load req rt svc s).1 =
      { Resources := s.Resources ++ (items.takeWhile Summary.wellFormed).map (descriptor rt)
        sent := s.sent ++ [req] } := by
  have hs := forRange_state rt items { s with sent := s.sent ++ [req] }
  simp only [load, h]
  split <;> rename_i heq <;> rw [heq] at hs <;> simpa using hs

theorem load_ok_outcome (req : Request) (rt : GoString) (svc : Client) (s : State)
    (items : List Summary) (h : svc req = .ok items) :
    (load req rt svc s).2 =
      match (forRange rt items { s with sent := s.sent ++ [req] }).2 with
      | some p => .panicked p
      | none => .returned none := by
  simp only [load, h]
  split <;> rename_i heq <;> simp [heq]

theorem load_clean (req : Request) (rt : GoString) (svc : Client) (s : State)
    (items : List Summary) (h : svc req = .ok items)
    (hwf : items.all Summary.wellFormed = true) :
    load req rt svc s =
      ({ Resources := s.Resources ++ items.map (descriptor rt)
         sent := s.sent ++ [req] }, .returned none) := by
  have h1 := load_ok_state req rt svc s items h
  have h2 := load_ok_outcome req rt svc s items h
  rw [(forRange_none_iff rt items _).2 hwf] at h2
  have htw : items.takeWhile Summary.wellFormed = items := by
    rw [List.takeWhile_eq_self_iff]
    intro x hx
    exact List.all_eq_true.1 hwf x hx
  rw [htw] at h1
  exact Prod.ext h1 h2

theorem load_appends (req : Request) (rt : GoString) (svc : Client) (s : State) :
    ∃ ds, (load req rt svc s).1.Resources = s.Resources ++ ds ∧
      ∀ d ∈ ds, d.provider_tag = str "aws" ∧ d.resource_type = rt ∧
        d.empty_value_allowances = [str "tags."] := by
  cases h : svc req with
  | error e => exact ⟨[], by simp [load_error req rt svc s e h]⟩
  | ok items =>
    refine ⟨(items.takeWhile Summary.wellFormed).map (descriptor rt), ?_, ?_⟩
    · rw [load_ok_state req rt svc s items h]
    · intro d hd
      obtain ⟨x, -, rfl⟩ := List.mem_map.1 hd
      simp [descriptor]

theorem Lister.run_clean (svc : Client) (l : Lister) (s : State)
    (h : l.clean svc = true) :
    l.run svc s =
      ({ Resources := s.Resources ++ l.descriptors svc
         sent := s.sent ++ [l.request] }, .returned none) := by
  rw [Lister.run_eq]
  unfold Lister.clean at h
  unfold Lister.descriptors
  cases hr : svc l.request with
  | error e => simp [hr] at h
  | ok items =>
    rw [hr] at h
    simpa using load_clean l.request l.resourceType svc s items hr h

theorem Lister.run_error (svc : Client) (l : Lister) (s : State) (e : GoError)
    (h : svc l.request = .error e) :
    l.run svc s = ({ s with sent := s.sent ++ [l.request] }, .returned (some e)) := by
  rw [Lister.run_eq]
  exact load_error l.request l.resourceType svc s e h

theorem runListers_clean (svc : Client) (ls : List Lister) (s : State)
    (h : ∀ l ∈ ls, l.clean svc = true) :
    runListers svc ls s =
      ({ Resources := s.Resources ++ ls.flatMap (Lister.descriptors svc)
         sent := s.sent ++ ls.map Lister.request }, .returned none) := by
  induction ls generalizing s with
  | nil => simp [runListers]
  | cons l ls ih =>
    have hl := Lister.run_clean svc l s (h l (List.mem_cons_self _ _))
    simp only [runListers, ifErrReturn, hl]
    rw [ih _ (fun l1 h1 => h l1 (List.mem_cons_of_mem _ h1))]
    simp [List.flatMap_cons]

theorem runListers_append (svc : Client) (pre ls : List Lister) (s : State)
    (h : ∀ l ∈ pre, l.clean svc = true) :
    runListers svc (pre ++ ls) s =
      runListers svc ls
        { Resources := s.Resources ++ pre.flatMap (Lister.descriptors svc)
          sent := s.sent ++ pre.map Lister.request } := by
  induction pre generalizing s with
  | nil => simp
  | cons l pre ih =>
    have hl := Lister.run_clean svc l s (h l (List.mem_cons_self _ _))
    have ih1 := ih { Resources := s.Resources ++ l.descriptors svc
                     sent := s.sent ++ [l.request] }
      (fun l1 h1 => h l1 (List.mem_cons_of_mem _ h1))
    simp only [List.cons_append, runListers, ifErrReturn, hl]
    refine Eq.trans ih1 ?_
    simp [List.flatMap_cons]

theorem runListers_fail (svc : Client) (pre : List Lister) (l : Lister)
    (post : List Lister) (s : State) (e : GoError)
    (hpre : ∀ l1 ∈ pre, l1.clean svc = true) (h : svc l.request = .error e) :
    runListers svc (pre ++ l :: post) s =
      ({ Resources := s.Resources ++ pre.flatMap (Lister.descriptors svc)
         sent := s.sent ++ (pre ++ [l]).map Lister.request }, .returned (some e)) := by
  rw [runListers_append svc pre (l :: post) s hpre]
  simp [runListers, ifErrReturn, Lister.run_error svc l _ e h]

theorem runListers_appends (svc : Client) (ls : List Lister) (s : State) :
    ∃ ds, (runListers svc ls s).1.Resources = s.Resources ++ ds ∧
      ∀ d ∈ ds, d.provider_tag = str "aws" ∧ d.empty_value_allowances = [str "tags."] := by
  induction ls generalizing s with
  | nil => exact ⟨[], by simp [runListers]⟩
  | cons l ls ih =>
    obtain ⟨ds, hds, hP⟩ := load_appends l.request l.resourceType svc s
    rw [← Lister.run_eq] at hds
    simp only [runListers, ifErrReturn]
    rcases hr : l.run svc s with ⟨s1, out⟩
    rw [hr] at hds
    have hP1 : ∀ d ∈ ds, d.provider_tag = str "aws" ∧
        d.empty_value_allowances = [str "tags."] := fun d hd => ⟨(hP d hd).1, (hP d hd).2.2⟩
    cases out with
    | panicked p => exact ⟨ds, hds, hP1⟩
    | returned err =>
      cases err with
      | some e => exact ⟨ds, hds, hP1⟩
      | none =>
        obtain ⟨ds2, hds2, hP2⟩ := ih s1
        refine ⟨ds ++ ds2, ?_, ?_⟩
        · simp only [hds2]
          simp only [] at hds
          rw [hds, List.append_assoc]
        · intro d hd
          rcases List.mem_append.1 hd with h1 | h2
          · exact hP1 d h1
          · exact hP2 d h2

theorem clean_of_items (svc : Client) (l : Lister) (items : List Summary)
    (h : svc l.request = .ok items)
    (hwf : ∀ x ∈ items, x.nonNil = true ∧ 8 ≤ x.idLen) : l.clean svc = true := by
  unfold Lister.clean
  rw [h]
  refine List.all_eq_true.2 fun x hx => ?_
  simp [Summary.wellFormed, (hwf x hx).1, (hwf x hx).2]

theorem descriptors_of_items (svc : Client) (l : Lister) (items : List Summary)
    (h : svc l.request = .ok items) :
    l.descriptors svc = items.map (descriptor l.resourceType) := by
  unfold Lister.descriptors
  rw [h]

theorem clean_congr (svc svc1 : Client) (l : Lister) (h : svc1 l.request = svc l.request) :
    l.clean svc1 = l.clean svc := by
  unfold Lister.clean
  rw [h]

theorem descriptors_congr (svc svc1 : Client) (l : Lister)
    (h : svc1 l.request = svc l.request) : l.descriptors svc1 = l.descriptors svc := by
  unfold Lister.descriptors
  rw [h]

theorem flatMap_descriptors_congr (svc svc1 : Client) (ls : List Lister)
    (h : ∀ l ∈ ls, svc1 l.request = svc l.request) :
    ls.flatMap (Lister.descriptors svc1) = ls.flatMap (Lister.descriptors svc) := by
  induction ls with
  | nil => rfl
  | cons a ls ih =>
    simp only [List.flatMap_cons]
    rw [descriptors_congr svc svc1 a (h a (List.mem_cons_self _ _)),
      ih (fun l hl => h l (List.mem_cons_of_mem _ hl))]

/-- A list of listers one of which is answered with an error splits at the first
such lister. -/
theorem first_error_split (svc : Client) (ls : List Lister)
    (h : ∃ l ∈ ls, ∃ e0, svc l.request = .error e0) :
    ∃ pre l post e, ls = pre ++ l :: post ∧
      (∀ l1 ∈ pre, ∃ items, svc l1.request = .ok items) ∧ svc l.request = .error e := by
  induction ls with
  | nil => simp at h
  | cons a ls ih =>
    cases ha : svc a.request with
    | error e => exact ⟨[], a, ls, e, rfl, by simp, ha⟩
    | ok items =>
      obtain ⟨l, hl, e0, he0⟩ := h
      rcases List.mem_cons.1 hl with rfl | hl1
      · rw [ha] at he0; cases he0
      · obtain ⟨pre, l2, post, e, hsplit, hpre, he⟩ := ih ⟨l, hl1, e0, he0⟩
        refine ⟨a :: pre, l2, post, e, by rw [hsplit]; rfl, ?_, he⟩
        intro l1 h1
        rcases List.mem_cons.1 h1 with rfl | h2
        · exact ⟨items, ha⟩
        · exact hpre l1 h2

theorem takeWhile_congr_mem {α : Type} (p q : α → Bool) (xs : List α)
    (h : ∀ x ∈ xs, p x = q x) : xs.takeWhile p = xs.takeWhile q := by
  induction xs with
  | nil => rfl
  | cons a xs ih =>
    have ha := h a (List.mem_cons_self _ _)
    have ih1 := ih (fun x hx => h x (List.mem_cons_of_mem _ hx))
    simp only [List.takeWhile_cons, ha, ih1]

theorem takeWhile_length_lt {α : Type} (p : α → Bool) (xs : List α)
    (h : ∃ x ∈ xs, p x = false) : (xs.takeWhile p).length < xs.length := by
  induction xs with
  | nil => simp at h
  | cons a xs ih =>
    cases ha : p a with
    | false => simp [List.takeWhile_cons, ha]
    | true =>
      obtain ⟨x, hx, hpx⟩ := h
      rcases List.mem_cons.1 hx with rfl | hx1
      · rw [ha] at hpx; cases hpx
      · have := ih ⟨x, hx1, hpx⟩
        simp only [List.takeWhile_cons, ha, if_true, List.length_cons]
        omega

theorem takeWhile_getElem? {α : Type} (p : α → Bool) (xs : List α) (i : Nat)
    (h : ∀ x ∈ xs.take (i + 1), p x = true) : (xs.takeWhile p)[i]? = xs[i]? := by
  induction xs generalizing i with
  | nil => rfl
  | cons a xs ih =>
    have ha : p a = true := h a (by simp)
    simp only [List.takeWhile_cons, ha, if_true]
    cases i with
    | zero => simp
    | succ j =>
      simp only [List.getElem?_cons_succ]
      refine ih j (fun x hx => h x ?_)
      simp only [List.take_succ_cons, List.mem_cons]
      exact Or.inr hx

theorem wellFormed_of (x : Summary) (hn : x.nonNil = true) :
    x.wellFormed = decide (8 ≤ x.idLen) := by
  simp [Summary.wellFormed, hn]

/-! ## Properties of the listers -/

/-- C8: a lister whose list call fails returns exactly the error of that call, leaves
the resource collection as it was, and has sent its list request exactly once. -/
theorem lister_failure_returns_error (l : Lister) (svc : Client) (s : State) (e : GoError)
    (h : svc l.request = .error e) :
    l.run svc s =
      ({ Resources := s.Resources, sent := s.sent ++ [l.request] }, .returned (some e)) :=
  Lister.run_error svc l s e h

theorem lister_failure_returns_error_witness :
    throttledClient Lister.byteMatchSet.request = .error ⟨"ThrottlingException"⟩ ∧
    loadByteMatchSet throttledClient emptyState =
      ({ Resources := [], sent := [.ListByteMatchSets] },
        .returned (some ⟨"ThrottlingException"⟩)) :=
  ⟨rfl, lister_failure_returns_error .byteMatchSet throttledClient emptyState _ rfl⟩

/-- C3: every descriptor a lister appends carries provider tag `aws` and the resource
type constant of that lister, per the table of the twelve listers; the twelve
constants are pairwise distinct. -/
theorem lister_resource_type_and_provider :
    Tags loadWebACL (str "aws_waf_web_acl") ∧
    Tags loadByteMatchSet (str "aws_waf_byte_match_set") ∧
    Tags loadGeoMatchSet (str "aws_waf_geo_match_set") ∧
    Tags loadIPSet (str "aws_waf_ipset") ∧
    Tags loadRateBasedRules (str "aws_waf_rate_based_rule") ∧
    Tags loadRegexMatchSets (str "aws_waf_regex_match_set") ∧
    Tags loadRegexPatternSets (str "aws_waf_regex_pattern_set") ∧
    Tags loadWafRules (str "aws_waf_rule") ∧
    Tags loadWafRuleGroups (str "aws_waf_rule_group") ∧
    Tags loadSizeConstraintSets (str "aws_waf_size_constraint_set") ∧
    Tags loadSqlInjectionMatchSets (str "aws_waf_sql_injection_match_set") ∧
    Tags loadXssMatchSet (str "aws_waf_xss_match_set") ∧
    List.Pairwise (· ≠ ·)
      [str "aws_waf_web_acl", str "aws_waf_byte_match_set", str "aws_waf_geo_match_set",
       str "aws_waf_ipset", str "aws_waf_rate_based_rule", str "aws_waf_regex_match_set",
       str "aws_waf_regex_pattern_set", str "aws_waf_rule", str "aws_waf_rule_group",
       str "aws_waf_size_constraint_set", str "aws_waf_sql_injection_match_set",
       str "aws_waf_xss_match_set"] := by
  have key : ∀ req rt, Tags (load req rt) rt := by
    intro req rt svc s
    obtain ⟨ds, hds, hP⟩ := load_appends req rt svc s
    exact ⟨ds, hds, fun d hd => ⟨(hP d hd).1, (hP d hd).2.1⟩⟩
  refine ⟨key _ _, key _ _, key _ _, key _ _, key _ _, key _ _, key _ _, key _ _,
    key _ _, key _ _, key _ _, key _ _, ?_⟩
  decide

/-- C4: every descriptor appended by `InitResources`, whatever the outcome of the
run, carries the allowance list `["tags."]`. -/
theorem initResources_allowances (generateConfig : Res GoError Client) (s : State) :
    ∃ ds, (InitResources generateConfig s).1.Resources = s.Resources ++ ds ∧
      ∀ d ∈ ds, d.empty_value_allowances = [str "tags."] := by
  cases generateConfig with
  | error e => exact ⟨[], by simp [InitResources]⟩
  | ok svc =>
    rw [InitResources_ok]
    obtain ⟨ds, hds, hP⟩ := runListers_appends svc listers s
    exact ⟨ds, hds, fun d hd => (hP d hd).2⟩

/-- C9: for a successful list response whose items have non-nil name and ID, a lister
completes without a panic if and only if every returned ID has at least 8 bytes; if
some ID is shorter, the lister panics on the slice bounds (so there is no normal
return), having appended descriptors for the items before the first short one only. -/
theorem lister_short_id_panics (l : Lister) (svc : Client) (s : State)
    (items : List Summary) (h : svc l.request = .ok items)
    (hn : ∀ x ∈ items, x.nonNil = true) :
    ((∀ p, (l.run svc s).2 ≠ .panicked p) ↔ ∀ x ∈ items, 8 ≤ x.idLen) ∧
    ((∃ x ∈ items, x.idLen < 8) →
      (l.run svc s).2 = .panicked .sliceBoundsOutOfRange ∧
      (l.run svc s).1.Resources = s.Resources ++
        (items.takeWhile (fun x => decide (8 ≤ x.idLen))).map (descriptor l.resourceType) ∧
      (l.run svc s).1.Resources.length < s.Resources.length + items.length) := by
  rw [Lister.run_eq]
  have hst := load_ok_state l.request l.resourceType svc s items h
  have hout := load_ok_outcome l.request l.resourceType svc s items h
  have hnone := forRange_none_iff l.resourceType items { s with sent := s.sent ++ [l.request] }
  have hpan := forRange_panic_nonNil l.resourceType items
    { s with sent := s.sent ++ [l.request] } hn
  have hall : items.all Summary.wellFormed = true ↔ ∀ x ∈ items, 8 ≤ x.idLen := by
    rw [List.all_eq_true]
    constructor
    · intro hw x hx
      have := hw x hx
      rw [wellFormed_of x (hn x hx)] at this
      exact of_decide_eq_true this
    · intro hw x hx
      rw [wellFormed_of x (hn x hx)]
      exact decide_eq_true (hw x hx)
  have htw : items.takeWhile Summary.wellFormed =
      items.takeWhile (fun x => decide (8 ≤ x.idLen)) :=
    takeWhile_congr_mem _ _ items (fun x hx => wellFormed_of x (hn x hx))
  constructor
  · rw [← hall, ← hnone, hout]
    cases hf : (forRange l.resourceType items { s with sent := s.sent ++ [l.request] }).2 with
    | none => simp
    | some p => simp
  · rintro ⟨x, hx, hlt⟩
    have hnot : ¬ items.all Summary.wellFormed = true := by
      rw [hall]
      intro hw
      have := hw x hx
      omega
    refine ⟨?_, ?_, ?_⟩
    · rw [hout]
      cases hf : (forRange l.resourceType items
          { s with sent := s.sent ++ [l.request] }).2 with
      | none => exact absurd (hnone.1 hf) hnot
      | some p => rw [hpan p hf]
    · rw [hst, htw]
    · rw [hst, htw]
      have := takeWhile_length_lt (fun x : Summary => decide (8 ≤ x.idLen)) items
        ⟨x, hx, by simpa using hlt⟩
      simp only [List.length_append, List.length_map]
      omega

theorem lister_short_id_panics_witness :
    shortIdClient Lister.rateBasedRules.request =
      .ok [item "0123456789" "r1", item "abc" "r2"] ∧
    (loadRateBasedRules shortIdClient emptyState).2 = .panicked .sliceBoundsOutOfRange ∧
    (loadRateBasedRules shortIdClient emptyState).1.Resources.length < 0 + 2 := by
  have h := (lister_short_id_panics .rateBasedRules shortIdClient emptyState
    [item "0123456789" "r1", item "abc" "r2"] rfl (by decide)).2
    ⟨item "abc" "r2", by decide, by decide⟩
  exact ⟨rfl, h.1, h.2.2⟩

/-- C1 (fails as stated): a Web ACL whose ID `abc` has 3 bytes gets no descriptor at
all, in particular none with display name `x_abc`; the lister panics instead. -/
theorem lister_short_id_no_display_name :
    shortIdClient .ListWebACLs = .ok [{ Id := some (str "abc"), Name := some (str "x") }] ∧
    str "x" ++ str "_" ++ (str "abc").take (min 8 (str "abc").length) = str "x_abc" ∧
    loadWebACL shortIdClient emptyState =
      ({ Resources := [], sent := [.ListWebACLs] }, .panicked .sliceBoundsOutOfRange) ∧
    ¬ ∃ d ∈ (loadWebACL shortIdClient emptyState).1.Resources,
        d.display_name = str "x_abc" := by
  decide

/-- C1 (amended): for the `i`-th item of a successful list response, with name `n` and
identifier `id`, when that item and the items before it have a name and an ID of at
least 8 bytes, the descriptor appended for it (the `i`-th appended) has display name
`n ++ "_" ++` the first `min(8, len(id))` bytes of `id`. -/
theorem lister_display_name (l : Lister) (svc : Client) (s : State)
    (items : List Summary) (h : svc l.request = .ok items) (i : Nat) (n id : GoString)
    (hi : items[i]? = some { Id := some id, Name := some n })
    (hpre : ∀ x ∈ items.take (i + 1), x.nonNil = true ∧ 8 ≤ x.idLen) :
    ∃ d, (l.run svc s).1.Resources[s.Resources.length + i]? = some d ∧
      d.display_name = n ++ str "_" ++ id.take (min 8 id.length) := by
  rw [Lister.run_eq, load_ok_state l.request l.resourceType svc s items h]
  have hwf : ∀ x ∈ items.take (i + 1), x.wellFormed = true := by
    intro x hx
    simp [Summary.wellFormed, (hpre x hx).1, (hpre x hx).2]
  have hget := takeWhile_getElem? Summary.wellFormed items i hwf
  have hmem : ({ Id := some id, Name := some n } : Summary) ∈ items.take (i + 1) := by
    refine List.getElem?_mem (n := i) ?_
    rw [List.getElem?_take_of_lt (Nat.lt_succ_self i)]
    exact hi
  have h8 : 8 ≤ id.length := (hpre _ hmem).2
  refine ⟨descriptor l.resourceType { Id := some id, Name := some n }, ?_, ?_⟩
  · simp only []
    rw [List.getElem?_append_right (Nat.le_add_right _ _), Nat.add_sub_cancel_left,
      List.getElem?_map, hget, hi]
    rfl
  · simp [descriptor, Nat.min_eq_left h8]

theorem lister_display_name_witness :
    ∃ d, (loadWebACL exampleClient emptyState).1.Resources[0 + 0]? = some d ∧
      d.display_name =
        str "myacl" ++ str "_" ++ (str "abcd1234ef").take (min 8 (str "abcd1234ef").length) :=
  lister_display_name .webACL exampleClient emptyState [item "abcd1234ef" "myacl"] rfl 0
    (str "myacl") (str "abcd1234ef") rfl (by decide)

/-- C2 (fails as stated): the rate-based rule list answers with two items, the second
with a 3-byte ID; the lister appends one descriptor, not two, and panics. -/
theorem lister_short_id_fewer_descriptors :
    shortIdClient .ListRateBasedRules = .ok [item "0123456789" "r1", item "abc" "r2"] ∧
    loadRateBasedRules shortIdClient emptyState =
      ({ Resources := [{ identifier := str "0123456789"
                         display_name := str "r1_01234567"
                         resource_type := str "aws_waf_rate_based_rule"
                         provider_tag := str "aws"
                         empty_value_allowances := [str "tags."] }]
         sent := [.ListRateBasedRules] },
        .panicked .sliceBoundsOutOfRange) ∧
    (loadRateBasedRules shortIdClient emptyState).1.Resources.length ≠ 2 := by
  decide

/-- C2 (amended): the descriptors a lister appends for a successful list response
carry, in response order, exactly the raw IDs of the items of an initial segment of
the response; when every returned item has a name and an ID of at least 8 bytes, the
lister returns `nil` and appends exactly one descriptor per returned item. -/
theorem lister_identifier (l : Lister) (svc : Client) (s : State)
    (items : List Summary) (h : svc l.request = .ok items) :
    (∃ ds, (l.run svc s).1.Resources = s.Resources ++ ds ∧
      ds.map (fun d => some d.identifier) <+: items.map Summary.Id) ∧
    ((∀ x ∈ items, x.nonNil = true ∧ 8 ≤ x.idLen) →
      (l.run svc s).2 = .returned none ∧
      ∃ ds, (l.run svc s).1.Resources = s.Resources ++ ds ∧
        ds.length = items.length ∧
        ds.map (fun d => some d.identifier) = items.map Summary.Id) := by
  have hid : ∀ x : Summary, x.wellFormed = true →
      some (descriptor l.resourceType x).identifier = x.Id := by
    intro x hx
    obtain ⟨id, name⟩ := x
    cases id with
    | none => simp [Summary.wellFormed, Summary.nonNil] at hx
    | some id => rfl
  constructor
  · refine ⟨(items.takeWhile Summary.wellFormed).map (descriptor l.resourceType), ?_, ?_⟩
    · rw [Lister.run_eq, load_ok_state l.request l.resourceType svc s items h]
    · rw [List.map_map]
      have hmap : (items.takeWhile Summary.wellFormed).map
            ((fun d => some d.identifier) ∘ descriptor l.resourceType) =
          (items.takeWhile Summary.wellFormed).map Summary.Id :=
        List.map_congr_left (fun x hx => hid x (List.mem_takeWhile_imp hx))
      rw [hmap]
      exact List.IsPrefix.map _ ( List.takeWhile_prefix _)
  · intro hwf
    have hall : items.all Summary.wellFormed = true :=
      List.all_eq_true.2 fun x hx => by
        simp [Summary.wellFormed, (hwf x hx).1, (hwf x hx).2]
    rw [Lister.run_eq, load_clean l.request l.resourceType svc s items h hall]
    refine ⟨rfl, items.map (descriptor l.resourceType), rfl, by simp, ?_⟩
    rw [List.map_map]
    exact List.map_congr_left (fun x hx => hid x (List.all_eq_true.1 hall x hx))

theorem lister_identifier_witness :
    (loadWebACL exampleClient emptyState).2 = .returned none ∧
    ∃ ds, (loadWebACL exampleClient emptyState).1.Resources = emptyState.Resources ++ ds ∧
      ds.length = [item "abcd1234ef" "myacl"].length ∧
      ds.map (fun d => some d.identifier) = [item "abcd1234ef" "myacl"].map Summary.Id :=
  (lister_identifier .webACL exampleClient emptyState [item "abcd1234ef" "myacl"] rfl).2
    (by decide)

/-! ## Properties of `InitResources` -/

/-- C5: when config generation and all twelve list calls succeed, every returned item
having a name and an ID of at least 8 bytes, `InitResources` returns `nil`, the
descriptors it appends are the per-lister descriptor lists concatenated in the fixed
order, each in response order, and their number is the sum of the twelve item
counts. -/
theorem initResources_all_succeed (svc : Client) (s : State) (resp : Lister → List Summary)
    (hresp : ∀ l, svc l.request = .ok (resp l))
    (hwf : ∀ l, ∀ x ∈ resp l, x.nonNil = true ∧ 8 ≤ x.idLen) :
    (InitResources (.ok svc) s).2 = .returned none ∧
    (InitResources (.ok svc) s).1.Resources = s.Resources ++
      ((resp .webACL).map (descriptor (str "aws_waf_web_acl")) ++
       (resp .byteMatchSet).map (descriptor (str "aws_waf_byte_match_set")) ++
       (resp .geoMatchSet).map (descriptor (str "aws_waf_geo_match_set")) ++
       (resp .ipSet).map (descriptor (str "aws_waf_ipset")) ++
       (resp .rateBasedRules).map (descriptor (str "aws_waf_rate_based_rule")) ++
       (resp .regexMatchSets).map (descriptor (str "aws_waf_regex_match_set")) ++
       (resp .regexPatternSets).map (descriptor (str "aws_waf_regex_pattern_set")) ++
       (resp .wafRules).map (descriptor (str "aws_waf_rule")) ++
       (resp .wafRuleGroups).map (descriptor (str "aws_waf_rule_group")) ++
       (resp .sizeConstraintSets).map (descriptor (str "aws_waf_size_constraint_set")) ++
       (resp .sqlInjectionMatchSets).map
         (descriptor (str "aws_waf_sql_injection_match_set")) ++
       (resp .xssMatchSet).map (descriptor (str "aws_waf_xss_match_set"))) ∧
    (InitResources (.ok svc) s).1.Resources.length = s.Resources.length +
      ((resp .webACL).length + (resp .byteMatchSet).length + (resp .geoMatchSet).length +
       (resp .ipSet).length + (resp .rateBasedRules).length +
       (resp .regexMatchSets).length + (resp .regexPatternSets).length +
       (resp .wafRules).length + (resp .wafRuleGroups).length +
       (resp .sizeConstraintSets).length + (resp .sqlInjectionMatchSets).length +
       (resp .xssMatchSet).length) := by
  have hclean : ∀ l ∈ listers, l.clean svc = true :=
    fun l _ => clean_of_items svc l (resp l) (hresp l) (hwf l)
  have hrun := runListers_clean svc listers s hclean
  rw [← InitResources_ok] at hrun
  have hres : (InitResources (.ok svc) s).1.Resources = s.Resources ++
      ((resp .webACL).map (descriptor (str "aws_waf_web_acl")) ++
       (resp .byteMatchSet).map (descriptor (str "aws_waf_byte_match_set")) ++
       (resp .geoMatchSet).map (descriptor (str "aws_waf_geo_match_set")) ++
       (resp .ipSet).map (descriptor (str "aws_waf_ipset")) ++
       (resp .rateBasedRules).map (descriptor (str "aws_waf_rate_based_rule")) ++
       (resp .regexMatchSets).map (descriptor (str "aws_waf_regex_match_set")) ++
       (resp .regexPatternSets).map (descriptor (str "aws_waf_regex_pattern_set")) ++
       (resp .wafRules).map (descriptor (str "aws_waf_rule")) ++
       (resp .wafRuleGroups).map (descriptor (str "aws_waf_rule_group")) ++
       (resp .sizeConstraintSets).map (descriptor (str "aws_waf_size_constraint_set")) ++
       (resp .sqlInjectionMatchSets).map
         (descriptor (str "aws_waf_sql_injection_match_set")) ++
       (resp .xssMatchSet).map (descriptor (str "aws_waf_xss_match_set"))) := by
    rw [hrun]
    simp only [listers, List.flatMap_cons, List.flatMap_nil,
      fun l => descriptors_of_items svc l (resp l) (hresp l), Lister.resourceType,
      List.append_nil, List.append_assoc]
  refine ⟨by rw [hrun], hres, ?_⟩
  rw [hres]
  simp only [List.length_append, List.length_map]

theorem initResources_all_succeed_witness :
    (∀ l, exampleClient l.request = .ok (exampleResponses l)) ∧
    (InitResources (.ok exampleClient) emptyState).2 = .returned none ∧
    (InitResources (.ok exampleClient) emptyState).1.Resources.length = 1 := by
  have h1 : ∀ l, exampleClient l.request = .ok (exampleResponses l) := by
    intro l; cases l <;> rfl
  have h2 : ∀ l, ∀ x ∈ exampleResponses l, x.nonNil = true ∧ 8 ≤ x.idLen := by
    intro l; cases l <;> decide
  have h := initResources_all_succeed exampleClient emptyState exampleResponses h1 h2
  exact ⟨h1, h.1, h.2.2⟩

/-- C6 (fails as stated): the byte match set list call is answered with an error, but
the Web ACL listed before it has a 3-byte ID; `InitResources` panics in `loadWebACL`
and returns no error. -/
theorem initResources_panics_before_failure :
    shortIdThenThrottledClient .ListByteMatchSets = .error ⟨"ThrottlingException"⟩ ∧
    InitResources (.ok shortIdThenThrottledClient) emptyState =
      ({ Resources := [], sent := [.ListWebACLs] }, .panicked .sliceBoundsOutOfRange) ∧
    (InitResources (.ok shortIdThenThrottledClient) emptyState).2 ≠
      .returned (some ⟨"ThrottlingException"⟩) := by
  decide

/-- C6 (amended): if at least one of the twelve list calls is answered with an error,
there is a first such call in the fixed order; when the list calls before it were
answered with items that have a name and an ID of at least 8 bytes, `InitResources`
returns exactly the error of that first failing call, the requests sent are those of
the listers up to and including it (no later lister runs), and the result is the same
whatever the later listers are answered with. -/
theorem initResources_first_failure (svc : Client) (s : State) :
    ((∃ l ∈ listers, ∃ e0, svc l.request = .error e0) →
      ∃ pre l post e, listers = pre ++ l :: post ∧
        (∀ l1 ∈ pre, ∃ items, svc l1.request = .ok items) ∧
        svc l.request = .error e) ∧
    (∀ pre l post e, listers = pre ++ l :: post →
      (∀ l1 ∈ pre, ∃ items, svc l1.request = .ok items ∧
        ∀ x ∈ items, x.nonNil = true ∧ 8 ≤ x.idLen) →
      svc l.request = .error e →
      (InitResources (.ok svc) s).2 = .returned (some e) ∧
      sentDuring (.ok svc) s = (pre ++ [l]).map Lister.request ∧
      ∀ svc1 : Client, (∀ l1 ∈ pre ++ [l], svc1 l1.request = svc l1.request) →
        InitResources (.ok svc1) s = InitResources (.ok svc) s) := by
  refine ⟨first_error_split svc listers, ?_⟩
  intro pre l post e hsplit hwf he
  have hpre : ∀ l1 ∈ pre, l1.clean svc = true := by
    intro l1 h1
    obtain ⟨items, hi, hw⟩ := hwf l1 h1
    exact clean_of_items svc l1 items hi hw
  unfold sentDuring
  simp only [InitResources_ok]
  refine ⟨?_, ?_, ?_⟩
  · rw [hsplit, runListers_fail svc pre l post s e hpre he]
  · rw [hsplit, runListers_fail svc pre l post s e hpre he]
    simp only [List.drop_left]
  · intro svc1 hagree
    have hpre1 : ∀ l1 ∈ pre, l1.clean svc1 = true := fun l1 h1 => by
      rw [clean_congr svc svc1 l1 (hagree l1 (List.mem_append_left _ h1))]
      exact hpre l1 h1
    have he1 : svc1 l.request = .error e := by
      rw [hagree l (List.mem_append_right _ (List.mem_singleton_self l))]
      exact he
    rw [hsplit, runListers_fail svc pre l post s e hpre he,
      runListers_fail svc1 pre l post s e hpre1 he1,
      flatMap_descriptors_congr svc svc1 pre
        (fun l1 h1 => hagree l1 (List.mem_append_left _ h1))]

theorem initResources_first_failure_witness :
    (∃ pre l post e, listers = pre ++ l :: post ∧
      (∀ l1 ∈ pre, ∃ items, throttledClient l1.request = .ok items) ∧
      throttledClient l.request = .error e) ∧
    ((InitResources (.ok throttledClient) emptyState).2 =
        .returned (some ⟨"ThrottlingException"⟩) ∧
      sentDuring (.ok throttledClient) emptyState =
        ([Lister.webACL] ++ [Lister.byteMatchSet]).map Lister.request ∧
      ∀ svc1 : Client,
        (∀ l1 ∈ [Lister.webACL] ++ [Lister.byteMatchSet],
          svc1 l1.request = throttledClient l1.request) →
        InitResources (.ok svc1) emptyState = InitResources (.ok throttledClient) emptyState) :=
  ⟨(initResources_first_failure throttledClient emptyState).1
      ⟨.byteMatchSet, by decide, ⟨"ThrottlingException"⟩, rfl⟩,
   (initResources_first_failure throttledClient emptyState).2
      [.webACL] .byteMatchSet _ ⟨"ThrottlingException"⟩ rfl
      (fun l1 h1 => by
        rw [List.mem_singleton.1 h1]
        exact ⟨[item "abcd1234ef" "myacl"], rfl, by decide⟩)
      rfl⟩

/-- C7 (fails as stated): after the byte match set list call fails, the collection
still holds the descriptor of the Web ACL listed before it; it is not the collection
as it was before the call. -/
theorem initResources_keeps_earlier_descriptors :
    throttledClient .ListByteMatchSets = .error ⟨"ThrottlingException"⟩ ∧
    InitResources (.ok throttledClient) emptyState =
      ({ Resources := [{ identifier := str "abcd1234ef"
                         display_name := str "myacl_abcd1234"
                         resource_type := str "aws_waf_web_acl"
                         provider_tag := str "aws"
                         empty_value_allowances := [str "tags."] }]
         sent := [.ListWebACLs, .ListByteMatchSets] },
        .returned (some ⟨"ThrottlingException"⟩)) ∧
    (InitResources (.ok throttledClient) emptyState).1.Resources ≠ emptyState.Resources := by
  decide

/-- C7 (amended): if the first of the twelve list calls to fail is that of lister `l`,
the listers `pre` before it having been answered with items that have a name and an ID
of at least 8 bytes, `InitResources` returns that error and the collection afterwards
is the collection before the call followed by the descriptors of the listers `pre`,
one per item they were answered with; so it equals the collection before the call
exactly when those earlier lists were all empty. -/
theorem initResources_failure_collection (svc : Client) (s : State)
    (pre : List Lister) (l : Lister) (post : List Lister) (e : GoError)
    (hsplit : listers = pre ++ l :: post)
    (hwf : ∀ l1 ∈ pre, ∃ items, svc l1.request = .ok items ∧
      ∀ x ∈ items, x.nonNil = true ∧ 8 ≤ x.idLen)
    (he : svc l.request = .error e) :
    (InitResources (.ok svc) s).2 = .returned (some e) ∧
    (InitResources (.ok svc) s).1.Resources =
      s.Resources ++ pre.flatMap (Lister.descriptors svc) ∧
    ((InitResources (.ok svc) s).1.Resources = s.Resources ↔
      ∀ l1 ∈ pre, svc l1.request = .ok []) := by
  have hpre : ∀ l1 ∈ pre, l1.clean svc = true := by
    intro l1 h1
    obtain ⟨items, hi, hw⟩ := hwf l1 h1
    exact clean_of_items svc l1 items hi hw
  have hrun := runListers_fail svc pre l post s e hpre he
  rw [← hsplit, ← InitResources_ok] at hrun
  refine ⟨by rw [hrun], by rw [hrun], ?_⟩
  rw [hrun]
  simp only [List.append_right_eq_self, List.flatMap_eq_nil_iff]
  constructor
  · intro h l1 h1
    obtain ⟨items, hi, -⟩ := hwf l1 h1
    have h2 := h l1 h1
    rw [descriptors_of_items svc l1 items hi, List.map_eq_nil_iff] at h2
    rw [hi, h2]
  · intro h l1 h1
    rw [descriptors_of_items svc l1 [] (h l1 h1)]
    rfl

theorem initResources_failure_collection_witness :
    (InitResources (.ok throttledClient) emptyState).2 =
      .returned (some ⟨"ThrottlingException"⟩) ∧
    (InitResources (.ok throttledClient) emptyState).1.Resources =
      emptyState.Resources ++ [Lister.webACL].flatMap (Lister.descriptors throttledClient) ∧
    ((InitResources (.ok throttledClient) emptyState).1.Resources = emptyState.Resources ↔
      ∀ l1 ∈ [Lister.webACL], throttledClient l1.request = .ok []) :=
  initResources_failure_collection throttledClient emptyState [.webACL] .byteMatchSet _
    ⟨"ThrottlingException"⟩ rfl
    (fun l1 h1 => by
      rw [List.mem_singleton.1 h1]
      exact ⟨[item "abcd1234ef" "myacl"], rfl, by decide⟩)
    rfl

/-- C10: `InitResources` only appends to the collection, in every outcome; if
`generateConfig` fails its error is returned, the state is untouched and no list call
is made; if the first failing list call is that of lister `l`, the listers `pre`
before it having been answered with items that have a name and an ID of at least 8
bytes, the collection afterwards is the initial one followed by the descriptors of
the listers `pre`, in order. -/
theorem initResources_append_only (generateConfig : Res GoError Client) (s : State) :
    s.Resources <+: (InitResources generateConfig s).1.Resources ∧
    (∀ e, generateConfig = .error e →
      InitResources generateConfig s = (s, .returned (some e)) ∧
      sentDuring generateConfig s = []) ∧
    (∀ svc pre l post e, generateConfig = .ok svc → listers = pre ++ l :: post →
      (∀ l1 ∈ pre, ∃ items, svc l1.request = .ok items ∧
        ∀ x ∈ items, x.nonNil = true ∧ 8 ≤ x.idLen) →
      svc l.request = .error e →
      (InitResources generateConfig s).1.Resources =
        s.Resources ++ pre.flatMap (Lister.descriptors svc) ∧
      (InitResources generateConfig s).2 = .returned (some e)) := by
  refine ⟨?_, ?_, ?_⟩
  · cases generateConfig with
    | error e => exact ⟨[], by simp [InitResources]⟩
    | ok svc =>
      obtain ⟨ds, hds, -⟩ := runListers_appends svc listers s
      exact ⟨ds, by rw [InitResources_ok, hds]⟩
  · intro e he
    subst he
    exact ⟨rfl, by simp [sentDuring, InitResources]⟩
  · intro svc pre l post e hg hsplit hpre he
    subst hg
    have hclean : ∀ l1 ∈ pre, l1.clean svc = true := by
      intro l1 h1
      obtain ⟨items, hi, hwf⟩ := hpre l1 h1
      exact clean_of_items svc l1 items hi hwf
    rw [InitResources_ok, hsplit, runListers_fail svc pre l post s e hclean he]
    exact ⟨rfl, rfl⟩

theorem initResources_append_only_witness :
    (InitResources (.error ⟨"no region"⟩) emptyState =
        (emptyState, .returned (some ⟨"no region"⟩)) ∧
      sentDuring (.error ⟨"no region"⟩) emptyState = []) ∧
    ((InitResources (.ok throttledClient) emptyState).1.Resources =
        emptyState.Resources ++
          [Lister.webACL].flatMap (Lister.descriptors throttledClient) ∧
      (InitResources (.ok throttledClient) emptyState).2 =
        .returned (some ⟨"ThrottlingException"⟩)) :=
  ⟨(initResources_append_only (.error ⟨"no region"⟩) emptyState).2.1 _ rfl,
   (initResources_append_only (.ok throttledClient) emptyState).2.2 throttledClient
      [.webACL] .byteMatchSet _ ⟨"ThrottlingException"⟩ rfl rfl
      (fun l1 h1 => by
        rw [List.mem_singleton.1 h1]
        exact ⟨[item "abcd1234ef" "myacl"], rfl, by decide⟩)
      rfl⟩

end Waf
